import Mathlib

/-!
Verification development for the approval-rationale-tracker repository.

The TypeScript domain core is shallowly embedded in Lean:
* JS `Date` values are embedded as `Int` millisecond timestamps (JS stores a
  date as a millisecond time value; all arithmetic the code performs on dates
  goes through `getTime()`), except `calculateApprovalLogicAge`, which reads
  only the local calendar components and is therefore embedded over a
  year/month/day record.
* JS `number` arithmetic on these timestamps is embedded as exact integer
  arithmetic (all values involved are integers far below 2^53, where doubles
  are exact); `Math.floor` of a quotient of integers is `Int.fdiv`.
* Arrays become `List`, string-union enums become inductives, and objects
  become structures with the source field names.
-/

/-- `RationaleStatus` from `src/types/index.ts`: the string union
`'Fresh' | 'Review Due' | 'Stale'`. -/
inductive RationaleStatus where
  | fresh
  | reviewDue
  | stale
deriving DecidableEq, Repr

/-- `DataSource` from `src/types/index.ts`: `'none' | 'demo' | 'extracted'`. -/
inductive DataSource where
  | none
  | demo
  | extracted
deriving DecidableEq, Repr

/-- `ContextualSignal` from `src/types/index.ts`. -/
structure ContextualSignal where
  id : String
  description : String
  updatedAt : Int
deriving DecidableEq, Repr

/-- `Rationale` from `src/types/index.ts`. -/
structure Rationale where
  id : String
  title : String
  description : String
  createdAt : Int
  lastReviewedAt : Int
  status : RationaleStatus
  contextualSignals : List ContextualSignal
deriving DecidableEq, Repr

/-- `PendingRationale` from `src/types/index.ts`. -/
structure PendingRationale where
  id : String
  title : String
  description : String
  extractedAt : Int
  sourceText : String
deriving DecidableEq, Repr

/-- `LoanInfo` from `src/types/index.ts`. -/
structure LoanInfo where
  id : String
  approvalDate : Int
  borrowerReference : String
deriving DecidableEq, Repr

/-- `LoanCockpitState` from `src/types/index.ts`. -/
structure LoanCockpitState where
  loan : Option LoanInfo
  rationales : List Rationale
  pendingRationales : List PendingRationale
  isExtracting : Bool
  showConfirmation : Bool
  dataSource : DataSource
deriving DecidableEq, Repr

/-! ### StalenessCalculator (`stalenessCalculator.ts`) -/

/-- `const msPerDay = 24 * 60 * 60 * 1000` from `getDaysSinceReview`. -/
def msPerDay : Int := 24 * 60 * 60 * 1000

/-- `FRESH_THRESHOLD_DAYS` from `stalenessCalculator.ts`. -/
def FRESH_THRESHOLD_DAYS : Int := 30

/-- `REVIEW_DUE_THRESHOLD_DAYS` from `stalenessCalculator.ts`. -/
def REVIEW_DUE_THRESHOLD_DAYS : Int := 90

/-- `getDaysSinceReview` from `stalenessCalculator.ts`:
`Math.floor((currentDate - lastReviewedDate) / msPerDay)`. -/
def getDaysSinceReview (lastReviewedDate currentDate : Int) : Int :=
  let diffMs := currentDate - lastReviewedDate
  diffMs.fdiv msPerDay

/-- `calculateStatus` from `stalenessCalculator.ts`. -/
def calculateStatus (lastReviewedDate currentDate : Int) : RationaleStatus :=
  let daysSinceReview := getDaysSinceReview lastReviewedDate currentDate
  if daysSinceReview ≤ FRESH_THRESHOLD_DAYS then .fresh
  else if daysSinceReview ≤ REVIEW_DUE_THRESHOLD_DAYS then .reviewDue
  else .stale

/-! ### ApprovalLogicAgeCalculator (`approvalLogicAge.ts`) -/

/-- The calendar components `calculateApprovalLogicAge` reads off its `Date`
arguments: `getFullYear()`, `getMonth()` (0-based) and `getDate()`
(day of month). -/
structure CalendarDate where
  year : Int
  month : Int
  day : Int
deriving DecidableEq, Repr

/-- `calculateApprovalLogicAge` from `approvalLogicAge.ts`. -/
def calculateApprovalLogicAge (approvalDate currentDate : CalendarDate) : Int :=
  let months := (currentDate.year - approvalDate.year) * 12
      + (currentDate.month - approvalDate.month)
  let months := if currentDate.day < approvalDate.day then months - 1 else months
  max 0 months

/-! ### ConfirmationActions (`confirmationActions.ts`) -/

/-- `confirmPendingRationale` from `confirmationActions.ts`. -/
def confirmPendingRationale (pending : PendingRationale) (confirmTime : Int) :
    Rationale :=
  { id := pending.id
    title := pending.title
    description := pending.description
    createdAt := confirmTime
    lastReviewedAt := confirmTime
    status := calculateStatus confirmTime confirmTime
    contextualSignals := [] }

/-- `rejectPendingRationale` from `confirmationActions.ts`. -/
def rejectPendingRationale (pendingList : List PendingRationale)
    (rationaleId : String) : List PendingRationale :=
  pendingList.filter (fun p => p.id ≠ rationaleId)

/-- `confirmAllPendingRationales` from `confirmationActions.ts`. -/
def confirmAllPendingRationales (pendingList : List PendingRationale)
    (confirmTime : Int) : List Rationale :=
  pendingList.map (fun pending => confirmPendingRationale pending confirmTime)

/-! ### ReviewActionService (`reviewAction.ts`) -/

/-- `markRationaleAsReviewed` from `reviewAction.ts`: spread of the input
rationale with `lastReviewedAt` and `status` overridden. -/
def markRationaleAsReviewed (rationale : Rationale) (reviewTime : Int) :
    Rationale :=
  { rationale with
    lastReviewedAt := reviewTime
    status := calculateStatus reviewTime reviewTime }

/-! ### ReviewSummaryGenerator (`reviewSummary.ts`) -/

/-- The element shape of `ReviewSummary.rationalesNeedingReview` from
`src/types/index.ts`. -/
structure ReviewEntry where
  title : String
  status : RationaleStatus
  daysSinceReview : Int
deriving DecidableEq, Repr

/-- `ReviewSummary` from `src/types/index.ts`. -/
structure ReviewSummary where
  generatedAt : Int
  loanId : String
  rationalesNeedingReview : List ReviewEntry
  summaryText : String
deriving DecidableEq, Repr

/-- The filter predicate of `generateReviewSummary` and
`getRationalesNeedingReview`: `r.status === 'Review Due' || r.status === 'Stale'`. -/
def needsReview (r : Rationale) : Bool :=
  r.status == .reviewDue || r.status == .stale

/-- The comparator `(a, b) => b.daysSinceReview - a.daysSinceReview` of
`generateSummaryText`, as the preorder it sorts by (descending day count). -/
def staleFirst (a b : ReviewEntry) : Prop :=
  b.daysSinceReview ≤ a.daysSinceReview

instance : DecidableRel staleFirst := fun a b =>
  inferInstanceAs (Decidable (b.daysSinceReview ≤ a.daysSinceReview))

instance : IsTotal ReviewEntry staleFirst :=
  ⟨fun a b => (le_total b.daysSinceReview a.daysSinceReview).imp id id⟩

instance : IsTrans ReviewEntry staleFirst :=
  ⟨fun _ _ _ hab hbc => le_trans hbc hab⟩

/-- The `[...rationalesNeedingReview].sort((a, b) => b.daysSinceReview -
a.daysSinceReview)` step of `generateSummaryText`. JS `Array.prototype.sort`
is a stable sort, embedded as a stable insertion sort by the same preorder. -/
def sortEntriesByDaysDesc (entries : List ReviewEntry) : List ReviewEntry :=
  List.insertionSort staleFirst entries

/-! Gregorian calendar conversion, used to embed the JS `Date` built-ins the
core calls (`toISOString`, parsing an ISO string back, `toLocaleDateString`).
`civilFromDays`/`daysFromCivil` are the standard civil-calendar conversions
between a day count relative to 1970-01-01 and a (year, month, day) triple. -/

/-- Day count since the epoch to civil (year, month 1..12, day 1..31). -/
def civilFromDays (z : Int) : Int × Nat × Nat :=
  let zz := z + 719468
  let era := zz.fdiv 146097
  let doe := (zz - era * 146097).toNat
  let yoe := (doe - doe / 1460 + doe / 36524 - doe / 146096) / 365
  let doy := doe - (365 * yoe + yoe / 4 - yoe / 100)
  let mp := (5 * doy + 2) / 153
  let d := doy - (153 * mp + 2) / 5 + 1
  let m := if mp < 10 then mp + 3 else mp - 9
  (((yoe : Int) + era * 400) + (if m ≤ 2 then 1 else 0), m, d)

/-- Civil (year, month 1..12, day) to day count since the epoch. -/
def daysFromCivil (y : Int) (m d : Nat) : Int :=
  let y := if m ≤ 2 then y - 1 else y
  let era := y.fdiv 400
  let yoe := (y - era * 400).toNat
  let mp := if 2 < m then m - 3 else m + 9
  let doy := (153 * mp + 2) / 5 + d - 1
  let doe := yoe * 365 + yoe / 4 - yoe / 100 + doy
  era * 146097 + (doe : Int) - 719468

/-- English month name for `formatDate`'s `toLocaleDateString('en-US',
{month: 'long', ...})`. -/
def monthName (m : Nat) : String :=
  match m with
  | 1 => "January" | 2 => "February" | 3 => "March" | 4 => "April"
  | 5 => "May" | 6 => "June" | 7 => "July" | 8 => "August"
  | 9 => "September" | 10 => "October" | 11 => "November" | 12 => "December"
  | _ => ""

/-- `formatDate` from `reviewSummary.ts`: `toLocaleDateString('en-US',
{year: 'numeric', month: 'long', day: 'numeric'})`, e.g. "June 1, 2024".
The JS call formats in the local zone; the embedding uses UTC. -/
def formatDate (t : Int) : String :=
  let c := civilFromDays (t.fdiv msPerDay)
  monthName c.2.1 ++ " " ++ toString c.2.2 ++ ", " ++ toString c.1

/-- The status strings of the `RationaleStatus` union. -/
def statusToString : RationaleStatus → String
  | .fresh => "Fresh"
  | .reviewDue => "Review Due"
  | .stale => "Stale"

/-- `generateSummaryText` from `reviewSummary.ts`: builds the `lines` array
and joins with newlines. -/
def generateSummaryText (loanId : String)
    (rationalesNeedingReview : List ReviewEntry) (generatedAt : Int) : String :=
  let header : List String :=
    ["ANNUAL REVIEW SUMMARY", "=====================", "",
     "Loan ID: " ++ loanId, "Generated: " ++ formatDate generatedAt, ""]
  let body : List String :=
    if rationalesNeedingReview.isEmpty then
      ["All approval rationales are current. No review required at this time."]
    else
      ["RATIONALES REQUIRING REVIEW", "---------------------------", ""]
      ++ (List.flatten ((sortEntriesByDaysDesc rationalesNeedingReview).map
            (fun item =>
              ["• " ++ item.title,
               "  Status: " ++ statusToString item.status,
               "  Days since last review: " ++ toString item.daysSinceReview,
               ""])))
      ++ ["---------------------------",
          "Total rationales requiring review: "
            ++ toString rationalesNeedingReview.length]
  String.intercalate "\n" (header ++ body)

/-- `generateReviewSummary` from `reviewSummary.ts`. -/
def generateReviewSummary (rationales : List Rationale) (loanId : String)
    (currentDate : Int) : ReviewSummary :=
  let needingReview := rationales.filter needsReview
  let rationalesNeedingReview := needingReview.map (fun r =>
    { title := r.title
      status := r.status
      daysSinceReview := getDaysSinceReview r.lastReviewedAt currentDate
      : ReviewEntry })
  let summaryText := generateSummaryText loanId rationalesNeedingReview currentDate
  { generatedAt := currentDate
    loanId := loanId
    rationalesNeedingReview := rationalesNeedingReview
    summaryText := summaryText }

/-- `getRationalesNeedingReview` from `reviewSummary.ts`. -/
def getRationalesNeedingReview (rationales : List Rationale) : List Rationale :=
  rationales.filter needsReview

/-! ### CockpitStateReducer (`LoanCockpitContext.tsx`) -/

/-- The rationale the reducer's `CONFIRM_RATIONALE` case builds inline from
the payload and `new Date()` (here the explicit `now`). -/
def mkConfirmedRationale (pending : PendingRationale) (now : Int) : Rationale :=
  { id := pending.id
    title := pending.title
    description := pending.description
    createdAt := now
    lastReviewedAt := now
    status := calculateStatus now now
    contextualSignals := [] }

/-- The `CONFIRM_RATIONALE` case of `loanCockpitReducer` in
`LoanCockpitContext.tsx`, with the reducer's `new Date()` made explicit. -/
def confirmRationaleTransition (state : LoanCockpitState)
    (pending : PendingRationale) (now : Int) : LoanCockpitState :=
  { state with
    rationales := state.rationales ++ [mkConfirmedRationale pending now]
    pendingRationales := state.pendingRationales.filter (fun p => p.id ≠ pending.id)
    showConfirmation := decide (1 < state.pendingRationales.length) }

/-! ### Persistence (`serializeState` / `deserializeState` in
`LoanCockpitContext.tsx`)

The JSON layer (`JSON.stringify`/`JSON.parse`) is the identity on the
intermediate object tree, so the embedding works on that tree directly: a
`Serialized*` structure is the snapshot shape with every `Date` field as a
string. The JS built-ins at the leaves are embedded faithfully:
`Date.prototype.toISOString` as `dateToISOString` (UTC Gregorian calendar,
`YYYY-MM-DDTHH:MM:SS.mmmZ`) and `new Date(isoString)` as `parseISODate`,
totalized with a junk value 0 standing for JS's Invalid Date. The status
string of a rationale passes through JSON untouched, so it keeps the
`RationaleStatus` embedding; `dataSource` is kept as a raw string because
`deserializeState` applies the `parsed.dataSource || 'none'` fallback to it. -/

/-- Zero-pad a number to `width` digits, as `toISOString` renders fields. -/
def padNat (width n : Nat) : String :=
  let s := toString n
  let l := s.length
  (String.mk (List.replicate (width - l) '0')) ++ s

/-- `Date.prototype.toISOString` on a millisecond timestamp (years 0..9999). -/
def dateToISOString (t : Int) : String :=
  let days := t.fdiv msPerDay
  let msOfDay := (t - days * msPerDay).toNat
  let c := civilFromDays days
  let hh := msOfDay / 3600000
  let mi := msOfDay % 3600000 / 60000
  let ss := msOfDay % 60000 / 1000
  let ms := msOfDay % 1000
  padNat 4 c.1.toNat ++ "-" ++ padNat 2 c.2.1 ++ "-" ++ padNat 2 c.2.2
    ++ "T" ++ padNat 2 hh ++ ":" ++ padNat 2 mi ++ ":" ++ padNat 2 ss
    ++ "." ++ padNat 3 ms ++ "Z"

/-- Numeric value of a decimal digit character. -/
def digitVal (c : Char) : Option Nat :=
  if '0' ≤ c ∧ c ≤ '9' then some (c.toNat - 48) else none

/-- Parse a fixed-width run of decimal digits. -/
def parseNatDigits (cs : List Char) : Option Nat :=
  cs.foldl (fun acc c => do
    let a ← acc
    let d ← digitVal c
    pure (a * 10 + d)) (some 0)

/-- `new Date(string)` on the ISO format `toISOString` emits, as a
millisecond timestamp; `none` stands for JS's Invalid Date. -/
def parseISODate (s : String) : Option Int :=
  match s.data with
  | [y1, y2, y3, y4, '-', o1, o2, '-', d1, d2, 'T',
     h1, h2, ':', i1, i2, ':', s1, s2, '.', m1, m2, m3, 'Z'] => do
    let y ← parseNatDigits [y1, y2, y3, y4]
    let mo ← parseNatDigits [o1, o2]
    let d ← parseNatDigits [d1, d2]
    let hh ← parseNatDigits [h1, h2]
    let mi ← parseNatDigits [i1, i2]
    let ss ← parseNatDigits [s1, s2]
    let ms ← parseNatDigits [m1, m2, m3]
    if 1 ≤ mo ∧ mo ≤ 12 ∧ 1 ≤ d ∧ d ≤ 31 ∧ hh ≤ 23 ∧ mi ≤ 59 ∧ ss ≤ 59 then
      pure (daysFromCivil (y : Int) mo d * msPerDay
        + ((hh * 3600000 + mi * 60000 + ss * 1000 + ms : Nat) : Int))
    else none
  | _ => none

/-- `new Date(string)` totalized the way the reducer state consumes it: an
unparseable string yields an Invalid Date, embedded as the junk value 0. -/
def parseDateMs (s : String) : Int :=
  (parseISODate s).getD 0

/-- The string of a `DataSource` value, as stored in the JSON snapshot. -/
def dataSourceToString : DataSource → String
  | .none => "none"
  | .demo => "demo"
  | .extracted => "extracted"

/-- The `parsed.dataSource || 'none'` read in `deserializeState`: a missing
or empty value falls back to `'none'`; the three known strings map to their
variants (the TS union has no other inhabitants in a well-formed snapshot). -/
def dataSourceOfString (s : String) : DataSource :=
  if s = "demo" then .demo
  else if s = "extracted" then .extracted
  else .none

/-- Snapshot shape of `LoanInfo` (`approvalDate` as an ISO string). -/
structure SerializedLoanInfo where
  id : String
  approvalDate : String
  borrowerReference : String
deriving DecidableEq, Repr

/-- Snapshot shape of `ContextualSignal`. -/
structure SerializedContextualSignal where
  id : String
  description : String
  updatedAt : String
deriving DecidableEq, Repr

/-- Snapshot shape of `Rationale`. -/
structure SerializedRationale where
  id : String
  title : String
  description : String
  createdAt : String
  lastReviewedAt : String
  status : RationaleStatus
  contextualSignals : List SerializedContextualSignal
deriving DecidableEq, Repr

/-- Snapshot shape of `PendingRationale`. -/
structure SerializedPendingRationale where
  id : String
  title : String
  description : String
  extractedAt : String
  sourceText : String
deriving DecidableEq, Repr

/-- Snapshot shape of `LoanCockpitState`, the object `serializeState` builds
and `JSON.stringify` renders. -/
structure SerializedState where
  loan : Option SerializedLoanInfo
  rationales : List SerializedRationale
  pendingRationales : List SerializedPendingRationale
  isExtracting : Bool
  showConfirmation : Bool
  dataSource : String
deriving DecidableEq, Repr

/-- The loan mapper inside `serializeState`. -/
def serializeLoanInfo (l : LoanInfo) : SerializedLoanInfo :=
  { id := l.id
    approvalDate := dateToISOString l.approvalDate
    borrowerReference := l.borrowerReference }

/-- The loan mapper inside `deserializeState`. -/
def deserializeLoanInfo (l : SerializedLoanInfo) : LoanInfo :=
  { id := l.id
    approvalDate := parseDateMs l.approvalDate
    borrowerReference := l.borrowerReference }

/-- The signal mapper inside `serializeState`. -/
def serializeSignal (s : ContextualSignal) : SerializedContextualSignal :=
  { id := s.id
    description := s.description
    updatedAt := dateToISOString s.updatedAt }

/-- The rationale mapper inside `serializeState`. -/
def serializeRationale (r : Rationale) : SerializedRationale :=
  { id := r.id
    title := r.title
    description := r.description
    createdAt := dateToISOString r.createdAt
    lastReviewedAt := dateToISOString r.lastReviewedAt
    status := r.status
    contextualSignals := r.contextualSignals.map serializeSignal }

/-- The pending-rationale mapper inside `serializeState`. -/
def serializePending (p : PendingRationale) : SerializedPendingRationale :=
  { id := p.id
    title := p.title
    description := p.description
    extractedAt := dateToISOString p.extractedAt
    sourceText := p.sourceText }

/-- `serializeState` from `LoanCockpitContext.tsx` (up to `JSON.stringify`,
which is the identity on this tree). -/
def serializeState (state : LoanCockpitState) : SerializedState :=
  { loan := state.loan.map serializeLoanInfo
    rationales := state.rationales.map serializeRationale
    pendingRationales := state.pendingRationales.map serializePending
    isExtracting := state.isExtracting
    showConfirmation := state.showConfirmation
    dataSource := dataSourceToString state.dataSource }

/-- The signal mapper inside `deserializeState`. -/
def deserializeSignal (s : SerializedContextualSignal) : ContextualSignal :=
  { id := s.id
    description := s.description
    updatedAt := parseDateMs s.updatedAt }

/-- The rationale mapper inside `deserializeState`. -/
def deserializeRationale (r : SerializedRationale) : Rationale :=
  { id := r.id
    title := r.title
    description := r.description
    createdAt := parseDateMs r.createdAt
    lastReviewedAt := parseDateMs r.lastReviewedAt
    status := r.status
    contextualSignals := r.contextualSignals.map deserializeSignal }

/-- The pending-rationale mapper inside `deserializeState`. -/
def deserializePending (p : SerializedPendingRationale) : PendingRationale :=
  { id := p.id
    title := p.title
    description := p.description
    extractedAt := parseDateMs p.extractedAt
    sourceText := p.sourceText }

/-- `deserializeState` from `LoanCockpitContext.tsx` (after `JSON.parse`,
which is the identity on this tree). -/
def deserializeState (parsed : SerializedState) : LoanCockpitState :=
  { loan := parsed.loan.map deserializeLoanInfo
    rationales := parsed.rationales.map deserializeRationale
    pendingRationales := parsed.pendingRationales.map deserializePending
    isExtracting := parsed.isExtracting
    showConfirmation := parsed.showConfirmation
    dataSource :=
      if parsed.dataSource = "" then .none
      else dataSourceOfString parsed.dataSource }

/-- A timestamp is a valid date for persistence purposes when the embedded
`toISOString`/`new Date` pair round-trips it exactly, which holds for every
in-range JS date (years 0..9999, as `toISOString` renders them). -/
def isoRoundTripB (t : Int) : Bool :=
  parseISODate (dateToISOString t) == some t

/-- All `Date`-typed fields of a state are valid dates. -/
def validDatesB (state : LoanCockpitState) : Bool :=
  (match state.loan with
   | some l => isoRoundTripB l.approvalDate
   | none => true)
  && state.rationales.all (fun r =>
      isoRoundTripB r.createdAt && isoRoundTripB r.lastReviewedAt
        && r.contextualSignals.all (fun s => isoRoundTripB s.updatedAt))
  && state.pendingRationales.all (fun p => isoRoundTripB p.extractedAt)

/-! ### RationaleExtractor (`rationaleExtractor.ts`)

Text is handled as `List Char` (one entry per code point; the source's UTF-16
indices agree on the Basic Multilingual Plane text the extractor targets).
The regular expressions the source builds are of one fixed shape — the
literal words of a header joined by `\s*` (`name.replace(/\s+/g, '\\s*')`),
matched case-insensitively — and are embedded as the scanning functions
below: at a candidate position each word must match case-insensitively and
between consecutive words any run of whitespace is skipped (the `\s*` is
followed by a non-whitespace word character, so backtracking can only accept
the maximal run). `generateId()` (wall clock + `Math.random()`) is embedded
as an injectable `genId : Nat → String` supplying the id of the n-th
generated rationale of one extraction call. -/

/-- The whitespace class of JS `\s` and `String.prototype.trim` (ASCII part). -/
def isJsWS (c : Char) : Bool :=
  c == ' ' || c == '\t' || c == '\n' || c == '\r' || c == '\x0b' || c == '\x0c'

/-- `String.prototype.trim`. -/
def jsTrim (cs : List Char) : List Char :=
  ((cs.dropWhile isJsWS).reverse.dropWhile isJsWS).reverse

/-- ASCII lower-casing of one character (JS `toLowerCase` restricted to the
ASCII letters the extractor's keywords and headers consist of). -/
def toLowerChar (c : Char) : Char :=
  if 'A' ≤ c ∧ c ≤ 'Z' then Char.ofNat (c.toNat + 32) else c

/-- `String.prototype.toLowerCase`. -/
def toLowerChars (cs : List Char) : List Char :=
  cs.map toLowerChar

/-- `replace(/\s+/g, ' ')`: each maximal whitespace run becomes one space. -/
def normalizeWSAux : List Char → Bool → List Char
  | [], _ => []
  | c :: cs, inRun =>
    if isJsWS c then
      if inRun then normalizeWSAux cs true else ' ' :: normalizeWSAux cs true
    else c :: normalizeWSAux cs false

/-- `replace(/\s+/g, ' ')` from `extractSections`'s content cleanup. -/
def normalizeWS (cs : List Char) : List Char :=
  normalizeWSAux cs false

/-- `replace(/^\s*[:\-]\s*/, '')` from `extractSections`'s content cleanup:
strips one leading colon or dash with surrounding whitespace, if present. -/
def stripLeadingColonDash (cs : List Char) : List Char :=
  match cs.dropWhile isJsWS with
  | c :: rest => if c == ':' || c == '-' then rest.dropWhile isJsWS else cs
  | [] => cs

/-- `String.prototype.substring(a, b)`: clamps both indices to the length
and swaps them if out of order. -/
def jsSubstring (cs : List Char) (a b : Nat) : List Char :=
  let len := cs.length
  let lo := min (min a len) (min b len)
  let hi := max (min a len) (min b len)
  (cs.take hi).drop lo

/-- Splits a section header into its literal words (the header names contain
single spaces), the units between the `\s*` gaps of the built regex. -/
def wordsOfAux : List Char → List Char → List (List Char)
  | [], acc => if acc.isEmpty then [] else [acc.reverse]
  | c :: cs, acc =>
    if c == ' ' then
      if acc.isEmpty then wordsOfAux cs [] else acc.reverse :: wordsOfAux cs []
    else wordsOfAux cs (c :: acc)

/-- The words of a header string. -/
def wordsOf (s : String) : List (List Char) :=
  wordsOfAux s.data []

/-- Case-insensitive prefix test (a regex word under the `i` flag). -/
def startsWithCI : List Char → List Char → Bool
  | [], _ => true
  | _ :: _, [] => false
  | p :: ps, c :: cs => toLowerChar p == toLowerChar c && startsWithCI ps cs

/-- Length of the leading whitespace run (a greedy `\s*`). -/
def countLeadingWS : List Char → Nat
  | [] => 0
  | c :: cs => if isJsWS c then countLeadingWS cs + 1 else 0

/-- Matches `w1\s*w2\s*...\s*wn` at the head of the text, returning the
matched length. -/
def matchWordsAt : List (List Char) → List Char → Option Nat
  | [], _ => some 0
  | [w], cs => if startsWithCI w cs then some w.length else none
  | w :: ws, cs =>
    if startsWithCI w cs then
      let rest := cs.drop w.length
      let gap := countLeadingWS rest
      (matchWordsAt ws (rest.drop gap)).map (fun n => w.length + gap + n)
    else none

/-- First match of the gap pattern in the text: `text.match(regex)` giving
the match index and the matched text's length. -/
def firstGapMatchAux (ws : List (List Char)) : List Char → Nat → Option (Nat × Nat)
  | [], i =>
    match matchWordsAt ws [] with
    | some len => some (i, len)
    | none => none
  | cs@(_ :: rest), i =>
    match matchWordsAt ws cs with
    | some len => some (i, len)
    | none => firstGapMatchAux ws rest (i + 1)

/-- First match of a header pattern in the text. -/
def firstGapMatch (ws : List (List Char)) (cs : List Char) : Option (Nat × Nat) :=
  firstGapMatchAux ws cs 0

/-- Exact prefix test for keyword search. -/
def listStartsWith : List Char → List Char → Bool
  | [], _ => true
  | _ :: _, [] => false
  | p :: ps, c :: cs => p == c && listStartsWith ps cs

/-- First occurrence of a pattern, `String.prototype.indexOf`. -/
def findSubstrAux (pat : List Char) : List Char → Nat → Option Nat
  | [], i => if pat.isEmpty then some i else none
  | cs@(_ :: rest), i =>
    if listStartsWith pat cs then some i else findSubstrAux pat rest (i + 1)

/-- `text.indexOf(pat)`. -/
def indexOfSubstr (cs pat : List Char) : Option Nat :=
  findSubstrAux pat cs 0

/-- `text.indexOf(c, start)`. -/
def indexOfCharFrom (cs : List Char) (c : Char) (start : Nat) : Option Nat :=
  (findSubstrAux [c] (cs.drop start) 0).map (· + start)

/-- `text.lastIndexOf(c, k)`: last occurrence at an index ≤ k. -/
def lastIndexOfCharLe (cs : List Char) (c : Char) (k : Nat) : Option Nat :=
  (cs.take (k + 1)).enum.foldl
    (fun acc p => if p.2 == c then some p.1 else acc) none

/-- One entry of the `sectionDefs` table in `extractSections`. -/
structure SectionDef where
  name : String
  endMarkers : List String
deriving Repr

/-- The `sectionDefs` table from `extractSections`. -/
def sectionDefs : List SectionDef :=
  [{ name := "Cash Flow Predictability",
     endMarkers := ["Asset Coverage", "Collateral", "Operational",
                    "Risk Factors", "Approval Recommendation"] },
   { name := "Asset Coverage",
     endMarkers := ["Operational", "Risk Factors", "Approval Recommendation",
                    "Cash Flow"] },
   { name := "Operational Track Record",
     endMarkers := ["Risk Factors", "Approval Recommendation", "Prepared By"] },
   { name := "Risk Factors and Mitigants",
     endMarkers := ["Approval Recommendation", "Prepared By", "Reviewed By"] },
   { name := "Executive Summary",
     endMarkers := ["Key Approval", "Cash Flow", "Collateral", "Risk Factors"] }]

/-- The end-marker loop of `extractSections`: the nearest end-marker match
after `startIndex` that lies more than 20 characters in, else text length. -/
def sectionEndIndex (cs : List Char) (startIndex : Nat)
    (endMarkers : List String) : Nat :=
  endMarkers.foldl (fun endIndex marker =>
    match firstGapMatch (wordsOf marker) (cs.drop startIndex) with
    | some (eidx, _) =>
      let potentialEnd := startIndex + eidx
      if potentialEnd < endIndex ∧ startIndex + 20 < potentialEnd then
        potentialEnd
      else endIndex
    | none => endIndex) cs.length

/-- The content cleanup of `extractSections`: trim, whitespace
normalization, leading colon/dash removal, trim. -/
def cleanSectionContent (raw : List Char) : List Char :=
  jsTrim (stripLeadingColonDash (normalizeWS (jsTrim raw)))

/-- `extractSections` from `rationaleExtractor.ts`: the section map as an
association list in `sectionDefs` order. -/
def extractSections (text : String) : List (String × String) :=
  let cs := text.data
  sectionDefs.foldl (fun sections sectionDef =>
    match firstGapMatch (wordsOf sectionDef.name) cs with
    | some (idx, len) =>
      let startIndex := idx + len
      let endIndex := sectionEndIndex cs startIndex sectionDef.endMarkers
      let content := cleanSectionContent ((cs.take endIndex).drop startIndex)
      if 20 < content.length then
        sections ++ [(sectionDef.name, String.mk content)]
      else sections
    | none => sections) []

/-- `sections.get(name)` on the association list. -/
def sectionsGet (sections : List (String × String)) (name : String) :
    Option String :=
  (sections.find? (fun kv => kv.1 == name)).map (fun kv => kv.2)

/-- The `sectionMappings` table of `mockExtractRationales`:
section name → rationale title. -/
def sectionMappings : List (String × String) :=
  [("Cash Flow Predictability", "Cash Flow Predictability"),
   ("Asset Coverage", "Asset Coverage / Collateral"),
   ("Operational Track Record", "Operational Track Record"),
   ("Risk Factors and Mitigants", "Risk Factors and Mitigants")]

/-- The section phase of `mockExtractRationales` (its first loop). -/
def sectionRationales (genId : Nat → String) (now : Int)
    (sections : List (String × String)) : List PendingRationale :=
  sectionMappings.foldl (fun rationales mapping =>
    match sectionsGet sections mapping.1 with
    | some sectionContent =>
      if 20 < sectionContent.data.length then
        rationales ++
          [{ id := genId rationales.length
             title := mapping.2
             description :=
               String.mk (jsTrim (jsSubstring sectionContent.data 0 350))
                 ++ (if 350 < sectionContent.data.length then "..." else "")
             extractedAt := now
             sourceText := sectionContent }]
      else rationales
    | none => rationales) []

/-- The `fallbackPatterns` table of `mockExtractRationales`:
keyword → rationale title. -/
def fallbackPatterns : List (String × String) :=
  [("cash flow", "Cash Flow Analysis"),
   ("collateral", "Collateral Evaluation"),
   ("management", "Management Assessment"),
   ("operational", "Operational Assessment"),
   ("risk", "Risk Assessment")]

/-- The keyword-fallback phase of `mockExtractRationales` (its second loop):
for each keyword found, the surrounding sentence bounded to 300 characters
from the keyword. -/
def keywordRationales (genId : Nat → String) (now : Int) (text : String) :
    List PendingRationale :=
  let cs := text.data
  let lowerText := toLowerChars cs
  fallbackPatterns.foldl (fun rationales pattern =>
    match indexOfSubstr lowerText pattern.1.data with
    | some keywordIndex =>
      let sentenceStart :=
        match lastIndexOfCharLe cs '.' keywordIndex with
        | some j => j + 1
        | none => 0
      let endIndex :=
        match indexOfCharFrom cs '.' (keywordIndex + pattern.1.data.length) with
        | some sentenceEnd => min (sentenceEnd + 1) (keywordIndex + 300)
        | none => keywordIndex + 300
      let context := jsTrim (jsSubstring cs sentenceStart endIndex)
      if 30 < context.length then
        rationales ++
          [{ id := genId rationales.length
             title := pattern.2
             description :=
               String.mk (jsSubstring context 0 350)
                 ++ (if 350 < context.length then "..." else "")
             extractedAt := now
             sourceText := String.mk context }]
      else rationales
    | none => rationales) []

/-- `mockExtractRationales` from `rationaleExtractor.ts`: sections first,
keyword fallback if the section phase yielded nothing, then the generic
"Approval Rationale" when both yielded nothing and the trimmed input is
non-empty. -/
def mockExtractRationales (genId : Nat → String) (now : Int) (text : String) :
    List PendingRationale :=
  let sections := extractSections text
  let fromSections := sectionRationales genId now sections
  let rationales :=
    if fromSections.isEmpty then keywordRationales genId now text
    else fromSections
  if rationales.isEmpty && decide (0 < (jsTrim text.data).length) then
    let content :=
      match sectionsGet sections "Executive Summary" with
      | some c =>
        if c.data.isEmpty then String.mk (jsSubstring text.data 0 500) else c
      | none => String.mk (jsSubstring text.data 0 500)
    [{ id := genId 0
       title := "Approval Rationale"
       description :=
         String.mk (jsTrim (jsSubstring content.data 0 350))
           ++ (if 350 < content.data.length then "..." else "")
       extractedAt := now
       sourceText := content }]
  else rationales

/-- A concrete id supply standing in for `generateId()` in closed
evaluations. -/
def defaultGenId (n : Nat) : String :=
  "rat-" ++ toString n

/-! ### Concrete fixtures for closed evaluations -/

/-- A pending rationale with id "p-A". -/
def pendingA : PendingRationale :=
  { id := "p-A", title := "Cash Flow", description := "dA",
    extractedAt := 0, sourceText := "sA" }

/-- A pending rationale with id "p-B". -/
def pendingB : PendingRationale :=
  { id := "p-B", title := "Collateral", description := "dB",
    extractedAt := 0, sourceText := "sB" }

/-- A pending rationale whose id "p-Z" occurs in no fixture list. -/
def pendingAbsent : PendingRationale :=
  { id := "p-Z", title := "Management", description := "dZ",
    extractedAt := 0, sourceText := "sZ" }

/-- A cockpit state with exactly two pending rationales. -/
def stateTwoPending : LoanCockpitState :=
  { loan := none, rationales := [], pendingRationales := [pendingA, pendingB],
    isExtracting := false, showConfirmation := true, dataSource := .extracted }

/-- Two review-needing rationales listed least-stale first (40 days, then
100 days since review, at the fixed evaluation time 200 days). -/
def rationalesLeastStaleFirst : List Rationale :=
  [{ id := "r-1", title := "Cash Flow", description := "d1", createdAt := 0,
     lastReviewedAt := 160 * msPerDay, status := .reviewDue,
     contextualSignals := [] },
   { id := "r-2", title := "Collateral", description := "d2", createdAt := 0,
     lastReviewedAt := 100 * msPerDay, status := .stale,
     contextualSignals := [] }]

/-- A concrete contextual signal with an in-range timestamp. -/
def exampleSignal : ContextualSignal :=
  { id := "sig-1", description := "Industry revenue data updated",
    updatedAt := 1699900000000 }

/-- A concrete confirmed rationale with in-range timestamps. -/
def exampleRationale : Rationale :=
  { id := "rat-1", title := "Cash Flow", description := "Stable revenues",
    createdAt := 1700000000000, lastReviewedAt := 1700000001234,
    status := .fresh, contextualSignals := [exampleSignal] }

/-- A concrete pending rationale with an in-range timestamp. -/
def examplePending : PendingRationale :=
  { id := "pen-1", title := "Collateral", description := "Strong coverage",
    extractedAt := 1700000002000,
    sourceText := "Collateral coverage is strong." }

/-- A fully populated cockpit state with concrete in-range timestamps. -/
def exampleState : LoanCockpitState :=
  { loan := some { id := "CML-2024-00847", approvalDate := 1690000000000,
                   borrowerReference := "B-1" }
    rationales := [exampleRationale]
    pendingRationales := [examplePending]
    isExtracting := false
    showConfirmation := true
    dataSource := .demo }

/-! ### Helper lemmas -/

/-- Immediately after a review or confirmation at time `t`, the recomputed
status is Fresh: the elapsed-day count is `fdiv 0 msPerDay = 0 ≤ 30`. -/
theorem calculateStatus_self (t : Int) : calculateStatus t t = .fresh := by
  simp [calculateStatus, getDaysSinceReview, msPerDay, FRESH_THRESHOLD_DAYS]

/-- Removing the elements a Boolean test selects shortens a list by their
count. -/
theorem length_filter_not_add_countP {α : Type} (f : α → Bool) (l : List α) :
    (l.filter (fun a => !(f a))).length + l.countP f = l.length := by
  induction l with
  | nil => rfl
  | cons a l ih =>
    cases h : f a <;>
      simp [List.filter_cons, List.countP_cons, h] <;> omega

/-! ### Claim theorems -/

/-- C1: `calculateStatus` returns Fresh when the elapsed whole days are at
most 30, Review Due when they are between 31 and 90 inclusive, and Stale
when they exceed 90; in particular 30 elapsed days give Fresh, 31 give
Review Due, 90 give Review Due, and 91 give Stale. -/
theorem calculateStatus_thresholds (lastReviewedAt now : Int) :
    (getDaysSinceReview lastReviewedAt now ≤ 30 →
      calculateStatus lastReviewedAt now = .fresh) ∧
    (31 ≤ getDaysSinceReview lastReviewedAt now ∧
        getDaysSinceReview lastReviewedAt now ≤ 90 →
      calculateStatus lastReviewedAt now = .reviewDue) ∧
    (90 < getDaysSinceReview lastReviewedAt now →
      calculateStatus lastReviewedAt now = .stale) ∧
    calculateStatus 0 (30 * msPerDay) = .fresh ∧
    calculateStatus 0 (31 * msPerDay) = .reviewDue ∧
    calculateStatus 0 (90 * msPerDay) = .reviewDue ∧
    calculateStatus 0 (91 * msPerDay) = .stale := by
  refine ⟨?_, ?_, ?_, by decide, by decide, by decide, by decide⟩
  · intro h
    simp only [calculateStatus, FRESH_THRESHOLD_DAYS, REVIEW_DUE_THRESHOLD_DAYS]
    rw [if_pos h]
  · intro h
    simp only [calculateStatus, FRESH_THRESHOLD_DAYS, REVIEW_DUE_THRESHOLD_DAYS]
    rw [if_neg (by omega), if_pos h.2]
  · intro h
    simp only [calculateStatus, FRESH_THRESHOLD_DAYS, REVIEW_DUE_THRESHOLD_DAYS]
    rw [if_neg (by omega), if_neg (by omega)]

/-- Witness for C1 at a concrete 45-day gap. -/
theorem calculateStatus_thresholds_witness :
    calculateStatus 0 (45 * msPerDay) = .reviewDue :=
  (calculateStatus_thresholds 0 (45 * msPerDay)).2.1 (by decide)

/-- C6: `confirmPendingRationale` copies the pending fields, stamps
`createdAt = lastReviewedAt = confirmTime`, computes
`status = calculateStatus(confirmTime, confirmTime)` (which is Fresh), and
attaches no contextual signals; `confirmAllPendingRationales` maps it over
the list, preserving order. -/
theorem confirmPendingRationale_spec (pending : PendingRationale)
    (confirmTime : Int) (pendingList : List PendingRationale) :
    confirmPendingRationale pending confirmTime =
      { id := pending.id, title := pending.title,
        description := pending.description, createdAt := confirmTime,
        lastReviewedAt := confirmTime, status := .fresh,
        contextualSignals := [] } ∧
    (confirmPendingRationale pending confirmTime).status
      = calculateStatus confirmTime confirmTime ∧
    confirmAllPendingRationales pendingList confirmTime
      = pendingList.map (fun p => confirmPendingRationale p confirmTime) := by
  refine ⟨?_, rfl, rfl⟩
  simp [confirmPendingRationale, calculateStatus_self]

/-- C7: `markRationaleAsReviewed` sets `lastReviewedAt` to the review time
and recomputes `status = calculateStatus(reviewTime, reviewTime)` (Fresh),
leaving `id`, `title`, `description`, `createdAt` and `contextualSignals`
unchanged. -/
theorem markRationaleAsReviewed_spec (r : Rationale) (reviewTime : Int) :
    markRationaleAsReviewed r reviewTime =
      { r with lastReviewedAt := reviewTime,
               status := calculateStatus reviewTime reviewTime } ∧
    (markRationaleAsReviewed r reviewTime).lastReviewedAt = reviewTime ∧
    (markRationaleAsReviewed r reviewTime).status = .fresh ∧
    (markRationaleAsReviewed r reviewTime).id = r.id ∧
    (markRationaleAsReviewed r reviewTime).title = r.title ∧
    (markRationaleAsReviewed r reviewTime).description = r.description ∧
    (markRationaleAsReviewed r reviewTime).createdAt = r.createdAt ∧
    (markRationaleAsReviewed r reviewTime).contextualSignals
      = r.contextualSignals :=
  ⟨rfl, rfl, calculateStatus_self _, rfl, rfl, rfl, rfl, rfl⟩

/-- C8: `calculateApprovalLogicAge` is the month difference
`(yearDiff)*12 + monthDiff`, minus 1 when the current day-of-month is
strictly below the approval day-of-month, clamped below at zero; it is 0 on
equal dates and never negative. -/
theorem calculateApprovalLogicAge_spec (approvalDate currentDate d : CalendarDate) :
    calculateApprovalLogicAge approvalDate currentDate =
      max 0 ((currentDate.year - approvalDate.year) * 12
        + (currentDate.month - approvalDate.month)
        - (if currentDate.day < approvalDate.day then 1 else 0)) ∧
    calculateApprovalLogicAge d d = 0 ∧
    0 ≤ calculateApprovalLogicAge approvalDate currentDate := by
  refine ⟨?_, ?_, ?_⟩
  · simp only [calculateApprovalLogicAge]
    split <;> simp
  · simp [calculateApprovalLogicAge]
  · simp only [calculateApprovalLogicAge]
    exact le_max_left 0 _

/-- C2 counterexample: with two pending rationales, confirming one leaves a
remaining count of 1, yet the flag stays `true` because the reducer tests
the pre-removal count — the claim would require `1 > 1`, i.e. `false`. -/
theorem confirmRationale_showConfirmation_cex :
    (confirmRationaleTransition stateTwoPending pendingA 0).pendingRationales.length = 1 ∧
    (confirmRationaleTransition stateTwoPending pendingA 0).showConfirmation = true ∧
    ¬ ((1 : Nat) > 1) := by
  refine ⟨by decide, by decide, by decide⟩

/-- C2 amended: after `CONFIRM_RATIONALE` the flag equals
(pending count BEFORE the transition > 1); when the confirmed id occurs in
the pending list exactly once, that equals (remaining count > 0) — the
surface closes only when no pending rationale remains. -/
theorem confirmRationale_showConfirmation_preCount (state : LoanCockpitState)
    (pending : PendingRationale) (now : Int) :
    (confirmRationaleTransition state pending now).showConfirmation
      = decide (1 < state.pendingRationales.length) ∧
    (state.pendingRationales.countP (fun q => decide (q.id = pending.id)) = 1 →
      (confirmRationaleTransition state pending now).showConfirmation
        = decide (0 < (confirmRationaleTransition state pending now).pendingRationales.length)) := by
  refine ⟨rfl, fun hcount => ?_⟩
  have hfun : (fun q : PendingRationale => decide (q.id ≠ pending.id))
      = fun q => !(decide (q.id = pending.id)) := by
    funext q
    exact decide_not
  have hlen := length_filter_not_add_countP
    (fun q : PendingRationale => decide (q.id = pending.id))
    state.pendingRationales
  rw [hcount] at hlen
  show decide (1 < state.pendingRationales.length)
    = decide (0 < (state.pendingRationales.filter
        (fun q => decide (q.id ≠ pending.id))).length)
  rw [hfun]
  exact decide_eq_decide.mpr (by omega)

/-- Witness for C2 amended at the two-pending fixture. -/
theorem confirmRationale_showConfirmation_preCount_witness :
    (confirmRationaleTransition stateTwoPending pendingA 0).showConfirmation
      = decide (0 < (confirmRationaleTransition stateTwoPending pendingA 0).pendingRationales.length) :=
  (confirmRationale_showConfirmation_preCount stateTwoPending pendingA 0).2
    (by decide)

/-- C3 counterexample: with the stalest rationale listed second, the
`rationalesNeedingReview` field keeps the input order [40, 100] and is not
sorted most-stale-first. -/
theorem reviewSummary_field_order_cex :
    ((generateReviewSummary rationalesLeastStaleFirst "CML-1"
        (200 * msPerDay)).rationalesNeedingReview.map
      (fun e => e.daysSinceReview)) = [40, 100] ∧
    ¬ List.Sorted staleFirst
      (generateReviewSummary rationalesLeastStaleFirst "CML-1"
        (200 * msPerDay)).rationalesNeedingReview := by
  refine ⟨by decide, by decide⟩

/-- C3 amended: `rationalesNeedingReview` preserves the input order of the
filtered rationales; the most-stale-first (descending `daysSinceReview`)
ordering applies only to the per-rationale listing rendered inside
`summaryText`, whose sort is indeed descending. -/
theorem reviewSummary_field_order_amended (rationales : List Rationale)
    (loanId : String) (now : Int) (entries : List ReviewEntry) :
    (generateReviewSummary rationales loanId now).rationalesNeedingReview
      = (rationales.filter needsReview).map (fun r =>
          { title := r.title, status := r.status,
            daysSinceReview := getDaysSinceReview r.lastReviewedAt now }) ∧
    List.Sorted staleFirst (sortEntriesByDaysDesc entries) :=
  ⟨rfl, List.sorted_insertionSort staleFirst entries⟩

/-- C4 counterexample: with `lastReviewedAt` one day after `now`,
`getDaysSinceReview` returns the floor value −1, which is negative — the
unconditional non-negativity in the claim fails. -/
theorem getDaysSinceReview_negative_cex :
    getDaysSinceReview 86400000 0 = -1 ∧
    ¬ (0 ≤ getDaysSinceReview 86400000 0) := by
  refine ⟨by decide, by decide⟩

/-- C4 amended: `getDaysSinceReview` equals
floor((now − lastReviewedAt) / msPerDay) for every pair of dates, and is
non-negative whenever `lastReviewedAt ≤ now`; consequently every entry of
`rationalesNeedingReview` carries a non-negative `daysSinceReview` provided
every listed rationale's `lastReviewedAt` is at most `now`. -/
theorem getDaysSinceReview_floor_amended :
    (∀ lastReviewedAt now : Int,
      getDaysSinceReview lastReviewedAt now
        = (now - lastReviewedAt).fdiv msPerDay) ∧
    (∀ lastReviewedAt now : Int, lastReviewedAt ≤ now →
      0 ≤ getDaysSinceReview lastReviewedAt now) ∧
    (∀ (rationales : List Rationale) (loanId : String) (now : Int),
      (∀ r ∈ rationales, r.lastReviewedAt ≤ now) →
      ∀ e ∈ (generateReviewSummary rationales loanId now).rationalesNeedingReview,
        0 ≤ e.daysSinceReview) := by
  refine ⟨fun _ _ => rfl, ?_, ?_⟩
  · intro l n h
    exact Int.fdiv_nonneg (by omega) (by decide)
  · intro rationales loanId now h e he
    simp only [generateReviewSummary, List.mem_map] at he
    obtain ⟨r, hr, rfl⟩ := he
    have hle := h r (List.mem_of_mem_filter hr)
    exact Int.fdiv_nonneg (by omega) (by decide)

/-- Witness for C4 amended at a one-day gap. -/
theorem getDaysSinceReview_floor_amended_witness :
    0 ≤ getDaysSinceReview 0 86400000 :=
  getDaysSinceReview_floor_amended.2.1 0 86400000 (by decide)

/-- C10: `CONFIRM_RATIONALE` appends exactly one confirmed rationale built
from the payload even when the payload id is absent from the pending list
(which is then left unchanged), and a second dispatch with the same payload
appends a second rationale with the same id. -/
theorem confirmRationale_append_duplicate (state : LoanCockpitState)
    (pending : PendingRationale) (t1 t2 : Int) :
    (confirmRationaleTransition state pending t1).rationales
      = state.rationales ++ [mkConfirmedRationale pending t1] ∧
    (mkConfirmedRationale pending t1).id = pending.id ∧
    (pending.id ∉ state.pendingRationales.map (fun q => q.id) →
      (confirmRationaleTransition state pending t1).pendingRationales
        = state.pendingRationales) ∧
    (confirmRationaleTransition (confirmRationaleTransition state pending t1)
        pending t2).rationales
      = state.rationales
          ++ [mkConfirmedRationale pending t1, mkConfirmedRationale pending t2] ∧
    (mkConfirmedRationale pending t2).id = pending.id := by
  refine ⟨rfl, rfl, fun h => ?_, ?_, rfl⟩
  · rw [show (confirmRationaleTransition state pending t1).pendingRationales
        = state.pendingRationales.filter (fun q => decide (q.id ≠ pending.id))
      from rfl]
    rw [List.filter_eq_self]
    intro a ha
    simp only [decide_eq_true_eq]
    intro heq
    exact h (by rw [← heq]; exact List.mem_map_of_mem _ ha)
  · show (state.rationales ++ [mkConfirmedRationale pending t1])
        ++ [mkConfirmedRationale pending t2] = _
    rw [List.append_assoc]
    rfl

/-- Witness for C10 at a payload id absent from the pending list. -/
theorem confirmRationale_append_duplicate_witness :
    (confirmRationaleTransition stateTwoPending pendingAbsent 0).pendingRationales
      = stateTwoPending.pendingRationales :=
  (confirmRationale_append_duplicate stateTwoPending pendingAbsent 0 0).2.2.1
    (by decide)

/-- A round-tripping timestamp is recovered exactly by the totalized date
parser. -/
theorem parseDateMs_roundTrip {t : Int} (h : isoRoundTripB t = true) :
    parseDateMs (dateToISOString t) = t := by
  have hp : parseISODate (dateToISOString t) = some t := by
    simpa [isoRoundTripB] using h
  simp [parseDateMs, hp]

/-- Round trip of one contextual signal through the snapshot shape. -/
theorem deserializeSignal_roundTrip (s : ContextualSignal)
    (h : isoRoundTripB s.updatedAt = true) :
    deserializeSignal (serializeSignal s) = s := by
  cases s with
  | mk i d u => simp [serializeSignal, deserializeSignal, parseDateMs_roundTrip h]

/-- Round trip of a signal list through the snapshot shape. -/
theorem map_signal_roundTrip (l : List ContextualSignal)
    (h : ∀ s ∈ l, isoRoundTripB s.updatedAt = true) :
    List.map deserializeSignal (List.map serializeSignal l) = l := by
  induction l with
  | nil => rfl
  | cons a l ih =>
    simp only [List.map_cons]
    rw [deserializeSignal_roundTrip a (h a (List.mem_cons_self a l)),
      ih (fun s hs => h s (List.mem_cons_of_mem a hs))]

/-- Round trip of one rationale through the snapshot shape. -/
theorem deserializeRationale_roundTrip (r : Rationale)
    (h1 : isoRoundTripB r.createdAt = true)
    (h2 : isoRoundTripB r.lastReviewedAt = true)
    (hs : ∀ s ∈ r.contextualSignals, isoRoundTripB s.updatedAt = true) :
    deserializeRationale (serializeRationale r) = r := by
  cases r with
  | mk i t d c la st cs =>
    simp [serializeRationale, deserializeRationale,
      parseDateMs_roundTrip h1, parseDateMs_roundTrip h2,
      map_signal_roundTrip cs hs]

/-- Round trip of a rationale list through the snapshot shape. -/
theorem map_rationale_roundTrip (l : List Rationale)
    (h : ∀ r ∈ l, isoRoundTripB r.createdAt = true
        ∧ isoRoundTripB r.lastReviewedAt = true
        ∧ ∀ s ∈ r.contextualSignals, isoRoundTripB s.updatedAt = true) :
    List.map deserializeRationale (List.map serializeRationale l) = l := by
  induction l with
  | nil => rfl
  | cons a l ih =>
    obtain ⟨h1, h2, hs⟩ := h a (List.mem_cons_self a l)
    simp only [List.map_cons]
    rw [deserializeRationale_roundTrip a h1 h2 hs,
      ih (fun r hr => h r (List.mem_cons_of_mem a hr))]

/-- Round trip of one pending rationale through the snapshot shape. -/
theorem deserializePending_roundTrip (p : PendingRationale)
    (h : isoRoundTripB p.extractedAt = true) :
    deserializePending (serializePending p) = p := by
  cases p with
  | mk i t d e s =>
    simp [serializePending, deserializePending, parseDateMs_roundTrip h]

/-- Round trip of a pending-rationale list through the snapshot shape. -/
theorem map_pending_roundTrip (l : List PendingRationale)
    (h : ∀ p ∈ l, isoRoundTripB p.extractedAt = true) :
    List.map deserializePending (List.map serializePending l) = l := by
  induction l with
  | nil => rfl
  | cons a l ih =>
    simp only [List.map_cons]
    rw [deserializePending_roundTrip a (h a (List.mem_cons_self a l)),
      ih (fun p hp => h p (List.mem_cons_of_mem a hp))]

/-- Round trip of the optional loan through the snapshot shape. -/
theorem loan_roundTrip (loan : Option LoanInfo)
    (h : (match loan with
          | some l => isoRoundTripB l.approvalDate
          | none => true) = true) :
    Option.map deserializeLoanInfo (Option.map serializeLoanInfo loan) = loan := by
  cases loan with
  | none => rfl
  | some l =>
    cases l with
    | mk i a b =>
      have ha : isoRoundTripB a = true := by simpa using h
      show some (deserializeLoanInfo (serializeLoanInfo ⟨i, a, b⟩))
        = some ⟨i, a, b⟩
      simp [serializeLoanInfo, deserializeLoanInfo, parseDateMs_roundTrip ha]

/-- The `parsed.dataSource || 'none'` read recovers the serialized tag. -/
theorem dataSource_roundTrip (ds : DataSource) :
    (if dataSourceToString ds = "" then DataSource.none
     else dataSourceOfString (dataSourceToString ds)) = ds := by
  cases ds <;> decide

/-- C5: for every cockpit state whose date fields are valid (round-tripping)
dates, deserializing the serialized snapshot reproduces an equal state:
every date field to millisecond precision, all arrays element-wise, and the
`isExtracting`, `showConfirmation` and `dataSource` fields preserved. -/
theorem serializeState_roundTrip (state : LoanCockpitState)
    (h : validDatesB state = true) :
    deserializeState (serializeState state) = state := by
  obtain ⟨loan, rationales, pendings, isE, showC, ds⟩ := state
  simp only [validDatesB, Bool.and_eq_true, List.all_eq_true] at h
  obtain ⟨⟨hloan, hrat⟩, hpend⟩ := h
  have hrat' : List.map deserializeRationale
      (List.map serializeRationale rationales) = rationales := by
    refine map_rationale_roundTrip rationales (fun r hr => ?_)
    have hb := hrat r hr
    simp only [Bool.and_eq_true, List.all_eq_true] at hb
    exact ⟨hb.1.1, hb.1.2, hb.2⟩
  have hpend' : List.map deserializePending
      (List.map serializePending pendings) = pendings :=
    map_pending_roundTrip pendings hpend
  simp only [serializeState, deserializeState, LoanCockpitState.mk.injEq]
  exact ⟨loan_roundTrip loan hloan, hrat', hpend', trivial, trivial,
    dataSource_roundTrip ds⟩

/-- Witness for C5 at a fully populated concrete state. -/
theorem serializeState_roundTrip_witness :
    deserializeState (serializeState exampleState) = exampleState :=
  serializeState_roundTrip exampleState (by decide)

/-- C9 counterexample: the whitespace-only input " " is non-empty, neither
extraction phase yields a rationale, yet no generic "Approval Rationale" is
emitted (the code tests the trimmed length, which is 0). -/
theorem mockExtractRationales_blank_cex :
    (" " : String) ≠ "" ∧
    sectionRationales defaultGenId 0 (extractSections " ") = [] ∧
    keywordRationales defaultGenId 0 " " = [] ∧
    mockExtractRationales defaultGenId 0 " " = [] := by
  refine ⟨by decide, by decide, by decide, by decide⟩

/-- C9 amended: the empty string yields the empty sequence, and for every
input whose TRIMMED content is non-empty on which neither the section phase
nor the keyword fallback produced any rationale, exactly one generic
rationale titled "Approval Rationale" is emitted. -/
theorem mockExtractRationales_generic_amended :
    (∀ (genId : Nat → String) (now : Int),
      mockExtractRationales genId now "" = []) ∧
    (∀ (genId : Nat → String) (now : Int) (text : String),
      sectionRationales genId now (extractSections text) = [] →
      keywordRationales genId now text = [] →
      jsTrim text.data ≠ [] →
      (mockExtractRationales genId now text).map (fun r => r.title)
        = ["Approval Rationale"]) := by
  constructor
  · intro genId now
    rfl
  · intro genId now text hs hk ht
    have hpos : 0 < (jsTrim text.data).length := List.length_pos.mpr ht
    simp [mockExtractRationales, hs, hk, hpos]

/-- Witness for C9 amended at the keyword-free, section-free input "zzz". -/
theorem mockExtractRationales_generic_amended_witness :
    (mockExtractRationales defaultGenId 0 "zzz").map (fun r => r.title)
      = ["Approval Rationale"] :=
  mockExtractRationales_generic_amended.2 defaultGenId 0 "zzz"
    (by decide) (by decide) (by decide)
